import Mathlib

/-!
Shallow embedding of `ollama-models.py`, a CLI that resolves ollama model
references to manifest files, computes the set of files (manifest + config
blob + layer blobs) constituting each model, verifies their existence, and
lists/copies/archives them.

Modelling conventions:
* A filesystem path is a list of its segments (`FsPath := List String`); an
  absolute POSIX path `/a/b/c` is `["a", "b", "c"]` and the filesystem root
  `/` is `[]`.  `os.path.dirname` on an absolute path drops the last
  segment (`List.dropLast`); `os.path.join root rel` is `root ++ rel`;
  rendering back to a string prepends `/` and intercalates `/`.
* All path inputs are taken to be absolute, so `os.path.abspath` is the
  identity on the segment representation.
* `os.path.relpath p start` is modelled for the only case the program
  exercises, where `start` is an ancestor prefix of `p`: it drops the
  prefix.
* The disk is a structure `FS` giving, for each rendered path string,
  whether it is an existing regular file (`os.path.isfile`), and the
  result of opening + JSON-decoding it as a manifest (`None` models any
  read/parse failure, which the program does not catch).
* Exceptions are modelled by `Except Err`: `KnownError` mirrors the
  program's caught exception type (with its message payloads), and
  `Err.fatal` stands for any uncaught exception (unreadable/unparsable
  manifest).
* Side-effecting emitters (print / shutil.copy2 / tarfile / zipfile) are
  modelled by the list of emission actions they perform, in order: the
  printed lines for `list`, the (source, destination) pairs for `copy`,
  and the (source, archive entry name) pairs for `tar`/`zip`.
-/

/-- A POSIX path as its list of segments. -/
abbrev FsPath := List String

/-- Render an absolute path: `/` followed by the segments joined with `/`. -/
def showPath (p : FsPath) : String := "/" ++ String.intercalate "/" p

/-- Render a relative path: the segments joined with `/`. -/
def showRel (p : FsPath) : String := String.intercalate "/" p

/-- `os.path.dirname` on an absolute path: drop the last segment.
(The fixpoint `dirname "/" = "/"` is `dropLast [] = []`.) -/
def dirname (p : FsPath) : FsPath := p.dropLast

/-- `os.path.relpath p start` in the one case the program uses it
(`start` an ancestor prefix of `p`): drop the prefix. -/
def relpath (p start : FsPath) : FsPath := p.drop start.length

/-- The root inference of `get_ollama_manifest_data` (line 58): five
`os.path.dirname` applications to the manifest's absolute path. -/
def rootResolve (p : FsPath) : FsPath :=
  dirname (dirname (dirname (dirname (dirname p))))

/-- `ManifestLayer` (TypedDict): one content-addressed blob reference. -/
structure ManifestLayer where
  mediaType : String
  digest : String
  size : Int
deriving DecidableEq, Repr

/-- `Manifest` (TypedDict): the decoded manifest JSON. -/
structure Manifest where
  schemaVersion : Int
  mediaType : String
  config : ManifestLayer
  layers : List ManifestLayer
deriving DecidableEq, Repr

/-- The state of the disk, at the granularity the program observes it:
`isfile` is `os.path.isfile` on a rendered path string, and
`readManifest` is `read_ollama_manifest` (open + `json.load`), with
`none` for any read or parse failure. -/
structure FS where
  isfile : String → Bool
  readManifest : String → Option Manifest

/-- `ManifestData` (NamedTuple): root, relative file list, total blob size. -/
structure ManifestData where
  root : FsPath
  files : List FsPath
  size : Int
deriving DecidableEq, Repr

/-- `KnownError`, the caught exception class, with the data its messages
carry: `fileNotFound` is raised by `get_ollama_manifest_data` (line 76)
and by the literal branch of `resolve_manifests` (line 160),
`manifestNotFound` by the symbolic branch (line 155), and `mixedRoots` by
`check_single_ollama_root` (line 87). -/
inductive KnownError where
  | fileNotFound (absPath : String)
  | manifestNotFound (ref : String) (manifestPath : String)
  | mixedRoots
deriving DecidableEq, Repr

/-- The message string of a `KnownError`, as formatted by the program. -/
def KnownError.message : KnownError → String
  | .fileNotFound absPath => "File not found: " ++ absPath
  | .manifestNotFound ref manifestPath =>
      ref ++ " manifest's not found: " ++ manifestPath
  | .mixedRoots => "All manifests must be in the same OLLAMA_MODELS directory."

/-- An exception: either a `KnownError` (caught at top level) or any other,
uncaught exception (`fatal`: unreadable or unparsable manifest JSON). -/
inductive Err where
  | known (e : KnownError)
  | fatal
deriving DecidableEq, Repr

/-- `digest.replace(':', '-')`: a single-character `str.replace`, i.e. the
character-wise map sending `:` to `-` and fixing every other character. -/
def replaceColonDash (s : String) : String :=
  String.mk (s.data.map fun c => if c = ':' then '-' else c)

/-- `os.path.join('blobs', digest.replace(':', '-'))` (line 68). -/
def toBlobPath (digest : String) : FsPath := ["blobs", replaceColonDash digest]

/-- Whether a string contains a `:` character. -/
def hasColon (s : String) : Bool := s.data.any fun c => c = ':'

/-- The existence loop of `get_ollama_manifest_data` (lines 73-76): scan
the file list in order and return the rendered absolute path of the first
entry that is not a regular file, or `none` when all exist. -/
def firstMissing (fs : FS) (root : FsPath) : List FsPath → Option String
  | [] => none
  | f :: rest =>
      if fs.isfile (showPath (root ++ f)) then firstMissing fs root rest
      else some (showPath (root ++ f))

/-- `get_ollama_manifest_data` (lines 56-78): infer the root five levels
up, read the manifest, assemble the file list (manifest relative path,
then config blob, then layer blobs), sum the sizes, verify every file
exists, and return the `ManifestData`. -/
def get_ollama_manifest_data (fs : FS) (manifest : FsPath) : Except Err ManifestData :=
  let manifest_absolute_path := manifest
  let root := dirname (dirname (dirname (dirname (dirname manifest_absolute_path))))
  match fs.readManifest (showPath manifest_absolute_path) with
  | none => .error .fatal
  | some manifest_data =>
      let digests : List String :=
        manifest_data.config.digest :: manifest_data.layers.map fun layer => layer.digest
      let files : List FsPath :=
        relpath manifest_absolute_path root :: digests.map toBlobPath
      let size : Int :=
        (manifest_data.layers.map fun layer => layer.size).sum + manifest_data.config.size
      match firstMissing fs root files with
      | some absPath => .error (.known (.fileNotFound absPath))
      | none => .ok ⟨root, files, size⟩

/-- `get_ollama_manifests_data` (lines 81-82): build every manifest in
order; the first exception aborts the whole list. -/
def get_ollama_manifests_data (fs : FS) : List FsPath → Except Err (List ManifestData)
  | [] => .ok []
  | m :: ms =>
      match get_ollama_manifest_data fs m with
      | .error e => .error e
      | .ok d =>
          match get_ollama_manifests_data fs ms with
          | .error e => .error e
          | .ok ds => .ok (d :: ds)

/-- `check_single_ollama_root` (lines 85-87): fail unless the set of
distinct roots has exactly one element.  The Python set's cardinality is
the length of the deduplicated list of roots. -/
def check_single_ollama_root (manifests_data : List ManifestData) : Except Err Unit :=
  if ((manifests_data.map fun d => d.root).dedup).length ≠ 1 then
    .error (.known .mixedRoots)
  else
    .ok ()

/-- `list_command` (lines 90-97): build all manifests, check the single
root, then print each file (its root-relative rendering), one per line. -/
def list_command (fs : FS) (manifests : List FsPath) : Except Err (List String) :=
  match get_ollama_manifests_data fs manifests with
  | .error e => .error e
  | .ok manifests_data =>
      match check_single_ollama_root manifests_data with
      | .error e => .error e
      | .ok _ => .ok (manifests_data.flatMap fun d => d.files.map showRel)

/-- `copy_command` (lines 100-110): build all manifests, then copy each
(root-joined source, destination-joined target) pair in order. -/
def copy_command (fs : FS) (manifests : List FsPath) (destination : FsPath) :
    Except Err (List (String × String)) :=
  match get_ollama_manifests_data fs manifests with
  | .error e => .error e
  | .ok manifests_data =>
      .ok (manifests_data.flatMap fun d =>
        d.files.map fun file => (showPath (d.root ++ file), showPath (destination ++ file)))

/-- `tar_command` (lines 113-122): build all manifests, then append each
file to the archive under its root-relative name.  The archive transport
(`archive_path`, `-` for stdout) does not affect the emitted entries. -/
def tar_command (fs : FS) (manifests : List FsPath) (archive_path : String) :
    Except Err (List (String × String)) :=
  match get_ollama_manifests_data fs manifests with
  | .error e => .error e
  | .ok manifests_data =>
      .ok (manifests_data.flatMap fun d =>
        d.files.map fun file => (showPath (d.root ++ file), showRel file))

/-- `zip_command` (lines 125-133): identical emitted entries to `tar`,
written through `zipfile` with store-only compression. -/
def zip_command (fs : FS) (manifests : List FsPath) (archive_path : String) :
    Except Err (List (String × String)) :=
  match get_ollama_manifests_data fs manifests with
  | .error e => .error e
  | .ok manifests_data =>
      .ok (manifests_data.flatMap fun d =>
        d.files.map fun file => (showPath (d.root ++ file), showRel file))

/-- A character of the class `[a-zA-Z0-9._-]` of the model regex. -/
def isNameChar (c : Char) : Bool :=
  c.isAlphanum || c = '.' || c = '_' || c = '-'

/-- A character list matching `[a-zA-Z0-9][a-zA-Z0-9._-]*` (the `name`
and `tag` groups of the model regex on line 142). -/
def validNamePart : List Char → Bool
  | [] => false
  | c :: cs => c.isAlphanum && cs.all isNameChar

/-- Split a character list at its first `:`, if any. -/
def splitAtColon : List Char → Option (List Char × List Char)
  | [] => none
  | c :: cs =>
      if c = ':' then some ([], cs)
      else
        match splitAtColon cs with
        | some (n, t) => some (c :: n, t)
        | none => none

/-- The anchored regex match
`^([a-zA-Z0-9][a-zA-Z0-9._-]*):([a-zA-Z0-9][a-zA-Z0-9._-]*)$` (line 142),
evaluated with Python `re.match` semantics: without `re.MULTILINE`, `$`
matches at the end of the string or just before a single trailing
newline, so the regex also accepts `name:tag` followed by one final `\n`,
which is not part of the captured `tag` group.  Since neither `:` nor
`\n` is in either character class, the string matches exactly when
splitting at its first `:` yields a valid name and a tag that is valid
after discarding one trailing newline, if present. -/
def model_pattern_match (s : String) : Option (String × String) :=
  match splitAtColon s.data with
  | some (n, t) =>
      let tag := if t.getLast? = some '\n' then t.dropLast else t
      if validNamePart n && validNamePart tag then some (String.mk n, String.mk tag)
      else none
  | none => none

/-- Split a character list into the chunks between `/` characters. -/
def segsOf : List Char → List (List Char)
  | [] => [[]]
  | c :: cs =>
      match segsOf cs with
      | [] => [[]]
      | seg :: rest => if c = '/' then [] :: seg :: rest else (c :: seg) :: rest

/-- Parse a path string into segments: split on `/`, dropping empty
segments (the leading one of an absolute path, and repeated slashes). -/
def strToPath (s : String) : FsPath :=
  ((segsOf s.data).map String.mk).filter fun seg => seg ≠ ""

/-- One iteration of the loop in `resolve_manifests` (lines 144-160):
a pattern match resolves to the store path and fails with
`manifestNotFound` if absent; otherwise the input is a literal manifest
path, failing with `fileNotFound` if absent. -/
def resolveOne (fs : FS) (models_dir : FsPath) (model_or_manifest : String) :
    Except Err FsPath :=
  match model_pattern_match model_or_manifest with
  | some (name, tag) =>
      let manifest := models_dir ++ ["manifests", "registry.ollama.ai", "library", name, tag]
      if fs.isfile (showPath manifest) then .ok manifest
      else .error (.known (.manifestNotFound model_or_manifest (showPath manifest)))
  | none =>
      if fs.isfile model_or_manifest then .ok (strToPath model_or_manifest)
      else .error (.known (.fileNotFound model_or_manifest))

/-- `resolve_manifests` (lines 136-162): resolve each input in order; the
first exception aborts the whole call (the generator is fully consumed by
`list(...)`, so an exception discards all earlier results). -/
def resolve_manifests (fs : FS) (values : List String) (models_dir : FsPath) :
    Except Err (List FsPath) :=
  match values with
  | [] => .ok []
  | v :: rest =>
      match resolveOne fs models_dir v with
      | .error e => .error e
      | .ok m =>
          match resolve_manifests fs rest models_dir with
          | .error e => .error e
          | .ok ms => .ok (m :: ms)

/-- The file list `get_ollama_manifest_data` assembles for a decoded
manifest (lines 61-69), as a standalone function of the manifest path and
the decoded record. -/
def manifestFiles (manifest : FsPath) (md : Manifest) : List FsPath :=
  relpath manifest (rootResolve manifest) ::
    (md.config.digest :: md.layers.map fun layer => layer.digest).map toBlobPath

/-- The size `get_ollama_manifest_data` computes (line 71). -/
def manifestSize (md : Manifest) : Int :=
  (md.layers.map fun layer => layer.size).sum + md.config.size

/-- Example store root `/home/user/.ollama/models`. -/
def exRoot : FsPath := ["home", "user", ".ollama", "models"]

/-- Example manifest path for the model `llama3:8b` in the example store. -/
def exManifestPath : FsPath :=
  exRoot ++ ["manifests", "registry.ollama.ai", "library", "llama3", "8b"]

/-- Example decoded manifest: a config blob of size 100 and two layers of
sizes 200 and 300. -/
def exManifest : Manifest :=
  { schemaVersion := 2
  , mediaType := "application/vnd.docker.distribution.manifest.v2+json"
  , config :=
      { mediaType := "application/vnd.docker.container.image.v1+json"
      , digest := "sha256:cfg", size := 100 }
  , layers :=
      [ { mediaType := "application/vnd.ollama.image.model"
        , digest := "sha256:l1", size := 200 }
      , { mediaType := "application/vnd.ollama.image.params"
        , digest := "sha256:l2", size := 300 } ] }

/-- The regular files present in the example store. -/
def exFileList : List String :=
  [ showPath exManifestPath
  , showPath (exRoot ++ ["blobs", "sha256-cfg"])
  , showPath (exRoot ++ ["blobs", "sha256-l1"])
  , showPath (exRoot ++ ["blobs", "sha256-l2"]) ]

/-- The example disk: all four files of `llama3:8b` present. -/
def exFS : FS :=
  { isfile := fun s => exFileList.contains s
  , readManifest := fun s =>
      if s = showPath exManifestPath then some exManifest else none }

/-- The `ManifestData` the program builds for the example manifest. -/
def exData : ManifestData :=
  { root := exRoot
  , files :=
      [ ["manifests", "registry.ollama.ai", "library", "llama3", "8b"]
      , ["blobs", "sha256-cfg"], ["blobs", "sha256-l1"], ["blobs", "sha256-l2"] ]
  , size := 600 }

/-- The example disk with the first layer blob deleted. -/
def exFSmissing : FS :=
  { isfile := fun s =>
      (exFileList.filter fun f => f ≠ showPath (exRoot ++ ["blobs", "sha256-l1"])).contains s
  , readManifest := fun s =>
      if s = showPath exManifestPath then some exManifest else none }

/-- A second example store root `/opt/ollama/models`. -/
def exRoot2 : FsPath := ["opt", "ollama", "models"]

/-- A manifest path for the model `phi3:mini` in the second store. -/
def exManifestPath2 : FsPath :=
  exRoot2 ++ ["manifests", "registry.ollama.ai", "library", "phi3", "mini"]

/-- A decoded manifest for the second store: a config blob of size 10 and
one layer of size 20. -/
def exManifest2 : Manifest :=
  { schemaVersion := 2
  , mediaType := "application/vnd.docker.distribution.manifest.v2+json"
  , config :=
      { mediaType := "application/vnd.docker.container.image.v1+json"
      , digest := "sha256:cfg2", size := 10 }
  , layers :=
      [ { mediaType := "application/vnd.ollama.image.model"
        , digest := "sha256:m1", size := 20 } ] }

/-- The regular files present across both example stores. -/
def exFileListBoth : List String :=
  exFileList ++
  [ showPath exManifestPath2
  , showPath (exRoot2 ++ ["blobs", "sha256-cfg2"])
  , showPath (exRoot2 ++ ["blobs", "sha256-m1"]) ]

/-- A disk holding both example stores, with every file present. -/
def exFSBoth : FS :=
  { isfile := fun s => exFileListBoth.contains s
  , readManifest := fun s =>
      if s = showPath exManifestPath then some exManifest
      else if s = showPath exManifestPath2 then some exManifest2 else none }

/-- The `ManifestData` the program builds for the second example manifest. -/
def exData2 : ManifestData :=
  { root := exRoot2
  , files :=
      [ ["manifests", "registry.ollama.ai", "library", "phi3", "mini"]
      , ["blobs", "sha256-cfg2"], ["blobs", "sha256-m1"] ]
  , size := 30 }

theorem stringMk_data (s : String) : String.mk s.data = s := by
  cases s
  rfl

theorem data_append_colon (n t : String) :
    (n ++ ":" ++ t).data = n.data ++ ':' :: t.data := by
  rw [String.data_append, String.data_append]
  simp

/-- Unfolding `get_ollama_manifest_data` once the manifest has been read:
the result is determined by the existence scan over `manifestFiles`. -/
theorem get_eq_of_read (fs : FS) (m : FsPath) (md : Manifest)
    (h : fs.readManifest (showPath m) = some md) :
    get_ollama_manifest_data fs m =
      match firstMissing fs (rootResolve m) (manifestFiles m md) with
      | some absPath => .error (.known (.fileNotFound absPath))
      | none => .ok ⟨rootResolve m, manifestFiles m md, manifestSize md⟩ := by
  unfold get_ollama_manifest_data
  simp only [h]
  rfl

theorem firstMissing_eq_none_iff (fs : FS) (root : FsPath) (l : List FsPath) :
    firstMissing fs root l = none ↔
      ∀ f ∈ l, fs.isfile (showPath (root ++ f)) = true := by
  induction l with
  | nil => simp [firstMissing]
  | cons f rest ih =>
      rw [firstMissing]
      by_cases hf : fs.isfile (showPath (root ++ f)) = true
      · rw [if_pos hf]
        simp [ih, hf]
      · rw [if_neg hf]
        constructor
        · intro h
          cases h
        · intro h
          exact absurd (h f (List.mem_cons_self f rest)) hf

theorem firstMissing_eq_some (fs : FS) (root : FsPath) (l : List FsPath)
    (q : String) (h : firstMissing fs root l = some q) :
    ∃ pre f post, l = pre ++ f :: post ∧
      (∀ g ∈ pre, fs.isfile (showPath (root ++ g)) = true) ∧
      fs.isfile (showPath (root ++ f)) = false ∧
      q = showPath (root ++ f) := by
  induction l with
  | nil => simp [firstMissing] at h
  | cons f rest ih =>
      by_cases hf : fs.isfile (showPath (root ++ f)) = true
      · rw [firstMissing, if_pos hf] at h
        obtain ⟨pre, g, post, hl, hpre, hg, hq⟩ := ih h
        exact ⟨f :: pre, g, post, by simp [hl], by simpa [hf] using hpre, hg, hq⟩
      · rw [firstMissing, if_neg hf] at h
        exact ⟨[], f, rest, rfl, by simp, by simpa using hf, (Option.some.injEq _ _).mp h.symm⟩

theorem manifests_data_ok_mem (fs : FS) (m : FsPath) :
    ∀ (ms : List FsPath) (ds : List ManifestData),
      get_ollama_manifests_data fs ms = .ok ds → m ∈ ms →
      ∃ d, get_ollama_manifest_data fs m = .ok d := by
  intro ms
  induction ms with
  | nil =>
      intro ds _ hm
      cases hm
  | cons a rest ih =>
      intro ds h hm
      rw [get_ollama_manifests_data] at h
      cases ha : get_ollama_manifest_data fs a with
      | error e => rw [ha] at h; cases h
      | ok d =>
          rw [ha] at h
          cases hrest : get_ollama_manifests_data fs rest with
          | error e => rw [hrest] at h; cases h
          | ok ds' =>
              cases hm with
              | head => exact ⟨d, ha⟩
              | tail _ hm' => exact ih ds' hrest hm'

theorem manifests_data_error_of_mem (fs : FS) (ms : List FsPath) (m : FsPath)
    (e : Err) (hm : m ∈ ms) (he : get_ollama_manifest_data fs m = .error e) :
    ∃ e', get_ollama_manifests_data fs ms = .error e' := by
  cases h : get_ollama_manifests_data fs ms with
  | ok ds =>
      obtain ⟨d, hd⟩ := manifests_data_ok_mem fs m ms ds h hm
      rw [hd] at he
      cases he
  | error e' => exact ⟨e', rfl⟩

theorem resolve_manifests_ok_iff (fs : FS) (values : List String)
    (models_dir : FsPath) (ps : List FsPath) :
    resolve_manifests fs values models_dir = .ok ps ↔
      List.Forall₂ (fun v p => resolveOne fs models_dir v = .ok p) values ps := by
  induction values generalizing ps with
  | nil =>
      constructor
      · intro h
        cases h
        exact List.Forall₂.nil
      · intro h
        cases h
        rfl
  | cons v rest ih =>
      constructor
      · intro h
        rw [resolve_manifests] at h
        cases hv : resolveOne fs models_dir v with
        | error e => rw [hv] at h; cases h
        | ok m =>
            rw [hv] at h
            cases hrest : resolve_manifests fs rest models_dir with
            | error e => rw [hrest] at h; cases h
            | ok ms =>
                rw [hrest] at h
                cases h
                exact List.Forall₂.cons hv ((ih ms).mp hrest)
      · intro h
        cases h with
        | cons hv hrest =>
            rw [resolve_manifests, hv, ((ih _).mpr hrest : _)]

theorem resolve_manifests_error (fs : FS) (values : List String)
    (models_dir : FsPath) (e : Err)
    (h : resolve_manifests fs values models_dir = .error e) :
    ∃ pre v post, values = pre ++ v :: post ∧
      (∀ u ∈ pre, ∃ p, resolveOne fs models_dir u = .ok p) ∧
      resolveOne fs models_dir v = .error e := by
  induction values with
  | nil => cases h
  | cons v rest ih =>
      rw [resolve_manifests] at h
      cases hv : resolveOne fs models_dir v with
      | error e' =>
          rw [hv] at h
          cases h
          exact ⟨[], v, rest, rfl, by simp, hv⟩
      | ok m =>
          rw [hv] at h
          cases hrest : resolve_manifests fs rest models_dir with
          | error e' =>
              rw [hrest] at h
              cases h
              obtain ⟨pre, u, post, hval, hpre, hu⟩ := ih hrest
              refine ⟨v :: pre, u, post, by simp [hval], ?_, hu⟩
              intro w hw
              rcases hw with _ | hw
              · exact ⟨m, hv⟩
              · exact hpre w (by assumption)
          | ok ms => rw [hrest] at h; cases h

theorem isAlphanum_ne_colon (c : Char) (h : c.isAlphanum = true) : c ≠ ':' := by
  intro hc
  rw [hc] at h
  exact absurd h (by decide)

theorem isNameChar_ne_colon (c : Char) (h : isNameChar c = true) : c ≠ ':' := by
  intro hc
  rw [hc] at h
  exact absurd h (by decide)

theorem validNamePart_no_colon (l : List Char) (h : validNamePart l = true) :
    ':' ∉ l := by
  cases l with
  | nil => simp
  | cons c cs =>
      rw [validNamePart, Bool.and_eq_true] at h
      intro hmem
      rcases List.mem_cons.mp hmem with hc | hc
      · exact isAlphanum_ne_colon c h.1 hc.symm
      · exact isNameChar_ne_colon ':' (List.all_eq_true.mp h.2 ':' hc) rfl

theorem splitAtColon_append (n t : List Char) (h : ':' ∉ n) :
    splitAtColon (n ++ ':' :: t) = some (n, t) := by
  induction n with
  | nil => simp [splitAtColon]
  | cons c cs ih =>
      have hc : ¬(c = ':') := fun hcc => h (hcc ▸ List.mem_cons_self c cs)
      rw [List.cons_append, splitAtColon, if_neg hc,
        ih fun hm => h (List.mem_cons_of_mem c hm)]

theorem splitAtColon_eq_some (l : List Char) :
    ∀ n t, splitAtColon l = some (n, t) → l = n ++ ':' :: t ∧ ':' ∉ n := by
  induction l with
  | nil =>
      intro n t h
      cases h
  | cons c cs ih =>
      intro n t h
      rw [splitAtColon] at h
      by_cases hc : c = ':'
      · rw [if_pos hc] at h
        cases h
        subst hc
        exact ⟨rfl, by simp⟩
      · rw [if_neg hc] at h
        cases hs : splitAtColon cs with
        | none => rw [hs] at h; cases h
        | some p =>
            rw [hs] at h
            cases h
            obtain ⟨hcs, hn⟩ := ih p.1 p.2 hs
            refine ⟨by rw [hcs]; rfl, ?_⟩
            intro hm
            rcases List.mem_cons.mp hm with hm | hm
            · exact hc hm.symm
            · exact hn hm


theorem validNamePart_no_newline (l : List Char) (h : validNamePart l = true) :
    '\n' ∉ l := by
  cases l with
  | nil => simp
  | cons c cs =>
      rw [validNamePart, Bool.and_eq_true] at h
      intro hmem
      rcases List.mem_cons.mp hmem with hc | hc
      · have h1 := h.1
        rw [← hc] at h1
        exact absurd h1 (by decide)
      · have := List.all_eq_true.mp h.2 '\n' hc
        exact absurd this (by decide)

theorem getLast_decomp (l : List Char) (c : Char) (h : l.getLast? = some c) :
    l = l.dropLast ++ [c] := by
  induction l with
  | nil => cases h
  | cons a rest ih =>
      cases rest with
      | nil =>
          rw [List.getLast?_singleton] at h
          injection h with h
          simp [h]
      | cons b rest' =>
          rw [List.getLast?_cons_cons] at h
          have ih' := ih h
          show a :: (b :: rest') = a :: (b :: rest').dropLast ++ [c]
          rw [List.cons_append, ← ih']

theorem model_pattern_match_eq_some_iff (s n t : String) :
    model_pattern_match s = some (n, t) ↔
      (s.data = n.data ++ ':' :: t.data ∨
        s.data = n.data ++ ':' :: (t.data ++ ['\n'])) ∧
        validNamePart n.data = true ∧ validNamePart t.data = true := by
  constructor
  · intro h
    rw [model_pattern_match] at h
    cases hs : splitAtColon s.data with
    | none => rw [hs] at h; cases h
    | some p =>
        obtain ⟨p1, p2⟩ := p
        rw [hs] at h
        replace h : (if (validNamePart p1 &&
            validNamePart (if p2.getLast? = some '\n' then p2.dropLast else p2)) = true then
            some (String.mk p1,
              String.mk (if p2.getLast? = some '\n' then p2.dropLast else p2))
            else none) = some (n, t) := h
        obtain ⟨hsplit, _⟩ := splitAtColon_eq_some s.data p1 p2 hs
        by_cases hnl : p2.getLast? = some '\n'
        · rw [if_pos hnl] at h
          by_cases hv : (validNamePart p1 && validNamePart p2.dropLast) = true
          · rw [if_pos hv] at h
            have h' := (Option.some.injEq _ _).mp h
            have hn : String.mk p1 = n := congrArg Prod.fst h'
            have ht : String.mk p2.dropLast = t := congrArg Prod.snd h'
            rw [Bool.and_eq_true] at hv
            subst hn
            subst ht
            refine ⟨Or.inr ?_, hv.1, hv.2⟩
            conv_lhs => rw [hsplit, getLast_decomp p2 '\n' hnl]
          · rw [if_neg hv] at h
            cases h
        · rw [if_neg hnl] at h
          by_cases hv : (validNamePart p1 && validNamePart p2) = true
          · rw [if_pos hv] at h
            have h' := (Option.some.injEq _ _).mp h
            have hn : String.mk p1 = n := congrArg Prod.fst h'
            have ht : String.mk p2 = t := congrArg Prod.snd h'
            rw [Bool.and_eq_true] at hv
            subst hn
            subst ht
            exact ⟨Or.inl hsplit, hv.1, hv.2⟩
          · rw [if_neg hv] at h
            cases h
  · rintro ⟨hsplit | hsplit, hn, ht⟩
    · rw [model_pattern_match, hsplit,
        splitAtColon_append n.data t.data (validNamePart_no_colon n.data hn)]
      have hnl : ¬((t.data).getLast? = some '\n') := by
        intro hc
        have hmem : '\n' ∈ t.data := by
          rw [getLast_decomp t.data '\n' hc]
          exact List.mem_append_right _ (by simp)
        exact validNamePart_no_newline t.data ht hmem
      show (if (validNamePart n.data &&
          validNamePart (if (t.data).getLast? = some '\n' then (t.data).dropLast
            else t.data)) = true then
          some (String.mk n.data,
            String.mk (if (t.data).getLast? = some '\n' then (t.data).dropLast
              else t.data))
          else none) = some (n, t)
      rw [if_neg hnl, if_pos (by rw [hn, ht]; rfl), stringMk_data, stringMk_data]
    · rw [model_pattern_match, hsplit,
        splitAtColon_append n.data (t.data ++ ['\n']) (validNamePart_no_colon n.data hn)]
      show (if (validNamePart n.data &&
          validNamePart (if (t.data ++ ['\n']).getLast? = some '\n' then
            (t.data ++ ['\n']).dropLast else (t.data ++ ['\n']))) = true then
          some (String.mk n.data,
            String.mk (if (t.data ++ ['\n']).getLast? = some '\n' then
              (t.data ++ ['\n']).dropLast else (t.data ++ ['\n'])))
          else none) = some (n, t)
      rw [List.getLast?_concat, if_pos rfl, List.dropLast_concat,
        if_pos (by rw [hn, ht]; rfl), stringMk_data, stringMk_data]

theorem no_colon_chars (s : String) (h : hasColon s = false) :
    ∀ c ∈ s.data, c ≠ ':' := by
  intro c hc hcc
  simp only [hasColon, List.any_eq_false, decide_eq_true_eq] at h
  exact h c hc hcc

theorem map_keep_no_colon (l : List Char) (h : ∀ c ∈ l, c ≠ ':') :
    l.map (fun c => if c = ':' then '-' else c) = l := by
  induction l with
  | nil => rfl
  | cons c cs ih =>
      rw [List.map_cons, if_neg (h c (List.mem_cons_self c cs)),
        ih fun d hd => h d (List.mem_cons_of_mem c hd)]

theorem replaceColonDash_split (p s : String) (hp : hasColon p = false)
    (hs : hasColon s = false) :
    replaceColonDash (p ++ ":" ++ s) = p ++ "-" ++ s := by
  rw [replaceColonDash, data_append_colon, List.map_append, List.map_cons,
    if_pos rfl, map_keep_no_colon p.data (no_colon_chars p hp),
    map_keep_no_colon s.data (no_colon_chars s hs)]
  have hdata : (p ++ "-" ++ s).data = p.data ++ '-' :: s.data := by
    rw [String.data_append, String.data_append]
    simp
  rw [← hdata, stringMk_data]

theorem dedup_all_eq (r : FsPath) :
    ∀ l : List FsPath, l ≠ [] → (∀ x ∈ l, x = r) → l.dedup = [r] := by
  intro l
  induction l with
  | nil => intro h _; exact absurd rfl h
  | cons a rest ih =>
      intro _ hall
      have ha : a = r := hall a (List.mem_cons_self a rest)
      cases rest with
      | nil => rw [ha]; simp
      | cons b rest' =>
          have hrest : (b :: rest').dedup = [r] :=
            ih (by simp) fun x hx => hall x (List.mem_cons_of_mem a hx)
          have hb : b = r := hall b (by simp)
          have hmem : a ∈ b :: rest' := by
            rw [ha, ← hb]
            exact List.mem_cons_self b rest'
          rw [List.dedup_cons_of_mem hmem, hrest]

/-- C1: for every manifest whose JSON parses into a `Manifest` record with
`n` layers, a successful `get_ollama_manifest_data` (the FileSetBuilder)
returns a `files` list of length `2 + n` whose first element is the
manifest's own path relative to the inferred root, followed by the config
digest's blob path, then the layers' blob paths in manifest order. -/
theorem C1_build_files_structure (fs : FS) (m : FsPath) (md : Manifest)
    (d : ManifestData)
    (hread : fs.readManifest (showPath m) = some md)
    (hok : get_ollama_manifest_data fs m = .ok d) :
    d.files = relpath m (rootResolve m) :: toBlobPath md.config.digest ::
        md.layers.map (fun layer => toBlobPath layer.digest) ∧
    d.files.length = 2 + md.layers.length ∧
    d.files.head? = some (relpath m (rootResolve m)) := by
  rw [get_eq_of_read fs m md hread] at hok
  cases hfm : firstMissing fs (rootResolve m) (manifestFiles m md) with
  | some q => rw [hfm] at hok; cases hok
  | none =>
      rw [hfm] at hok
      injection hok with hok'
      rw [← hok']
      refine ⟨?_, ?_, ?_⟩
      · simp [manifestFiles, List.map_map]
      · simp [manifestFiles]
        omega
      · simp [manifestFiles]

/-- C1 witness: the example store, evaluated. -/
theorem C1_build_files_structure_witness :
    exFS.readManifest (showPath exManifestPath) = some exManifest ∧
    get_ollama_manifest_data exFS exManifestPath = .ok exData ∧
    (exData.files = relpath exManifestPath (rootResolve exManifestPath) ::
        toBlobPath exManifest.config.digest ::
        exManifest.layers.map (fun layer => toBlobPath layer.digest) ∧
      exData.files.length = 2 + exManifest.layers.length ∧
      exData.files.head? = some (relpath exManifestPath (rootResolve exManifestPath))) :=
  ⟨by rfl, by rfl,
    C1_build_files_structure exFS exManifestPath exManifest exData (by rfl) (by rfl)⟩

/-- C2: for every successfully built FileSet, `size` equals the config
layer's size plus the sum of all layer sizes.  (The manifest file's own
size does not occur in the expression at all, so it is not included.) -/
theorem C2_build_size (fs : FS) (m : FsPath) (md : Manifest) (d : ManifestData)
    (hread : fs.readManifest (showPath m) = some md)
    (hok : get_ollama_manifest_data fs m = .ok d) :
    d.size = md.config.size + (md.layers.map fun layer => layer.size).sum := by
  rw [get_eq_of_read fs m md hread] at hok
  cases hfm : firstMissing fs (rootResolve m) (manifestFiles m md) with
  | some q => rw [hfm] at hok; cases hok
  | none =>
      rw [hfm] at hok
      injection hok with hok'
      rw [← hok']
      show manifestSize md = _
      rw [manifestSize, Int.add_comm]

/-- C2 witness: the example store has config size 100 and layers of sizes
200 and 300; the built size is 600. -/
theorem C2_build_size_witness :
    get_ollama_manifest_data exFS exManifestPath = .ok exData ∧
    exData.size =
      exManifest.config.size + (exManifest.layers.map fun layer => layer.size).sum :=
  ⟨by rfl, C2_build_size exFS exManifestPath exManifest exData (by rfl) (by rfl)⟩

/-- C3: the root resolver is exactly five `dirname` ascents, and on a
manifest at `root/manifests/registry.ollama.ai/library/NAME/TAG` it
returns exactly `root`. -/
theorem C3_root_five_levels (p root : FsPath) (name tag : String) :
    rootResolve p = dirname (dirname (dirname (dirname (dirname p)))) ∧
    rootResolve (root ++ ["manifests", "registry.ollama.ai", "library", name, tag]) = root := by
  constructor
  · rfl
  · have h5 : root ++ ["manifests", "registry.ollama.ai", "library", name, tag] =
        ((((root ++ ["manifests"]) ++ ["registry.ollama.ai"]) ++ ["library"]) ++ [name]) ++ [tag] := by
      simp
    rw [rootResolve, h5]
    show (((((((((root ++ ["manifests"]) ++ ["registry.ollama.ai"]) ++ ["library"]) ++ [name]) ++ [tag]).dropLast).dropLast).dropLast).dropLast).dropLast = root
    rw [List.dropLast_concat, List.dropLast_concat, List.dropLast_concat,
      List.dropLast_concat, List.dropLast_concat]

/-- C4: once the manifest is read, `get_ollama_manifest_data` succeeds if
and only if every entry of the file list, joined with the root, is an
existing regular file; when it fails with a `fileNotFound` `KnownError`,
the named path is the absolute path of the first missing entry (the
message is `File not found:` followed by that absolute path); and the
check runs on every call, pure listing included: if the build of a
manifest in the list fails, `list_command` fails too. -/
theorem C4_existence_verified (fs : FS) (m : FsPath) (md : Manifest)
    (hread : fs.readManifest (showPath m) = some md) :
    ((∃ d, get_ollama_manifest_data fs m = .ok d) ↔
      ∀ f ∈ manifestFiles m md, fs.isfile (showPath (rootResolve m ++ f)) = true) ∧
    (∀ q, get_ollama_manifest_data fs m = .error (.known (.fileNotFound q)) →
      (KnownError.fileNotFound q).message = "File not found: " ++ q ∧
      ∃ pre f post, manifestFiles m md = pre ++ f :: post ∧
        (∀ g ∈ pre, fs.isfile (showPath (rootResolve m ++ g)) = true) ∧
        fs.isfile (showPath (rootResolve m ++ f)) = false ∧
        q = showPath (rootResolve m ++ f)) ∧
    (∀ e (ms : List FsPath), get_ollama_manifest_data fs m = .error e → m ∈ ms →
      ∃ e', list_command fs ms = .error e') := by
  refine ⟨?_, ?_, ?_⟩
  · rw [get_eq_of_read fs m md hread]
    cases hfm : firstMissing fs (rootResolve m) (manifestFiles m md) with
    | some q =>
        constructor
        · rintro ⟨d, hd⟩
          cases hd
        · intro hall
          obtain ⟨pre, f, post, hl, _, hf, _⟩ :=
            firstMissing_eq_some fs (rootResolve m) (manifestFiles m md) q hfm
          have : fs.isfile (showPath (rootResolve m ++ f)) = true :=
            hall f (by rw [hl]; exact List.mem_append_right pre (List.mem_cons_self f post))
          rw [this] at hf
          cases hf
    | none =>
        constructor
        · intro _
          exact (firstMissing_eq_none_iff fs (rootResolve m) (manifestFiles m md)).mp hfm
        · intro _
          exact ⟨_, rfl⟩
  · intro q hq
    rw [get_eq_of_read fs m md hread] at hq
    cases hfm : firstMissing fs (rootResolve m) (manifestFiles m md) with
    | some q' =>
        rw [hfm] at hq
        injection hq with hq'
        injection hq' with hq''
        injection hq'' with hq3
        subst hq3
        exact ⟨rfl, firstMissing_eq_some fs (rootResolve m) (manifestFiles m md) q' hfm⟩
    | none =>
        rw [hfm] at hq
        cases hq
  · intro e ms he hm
    obtain ⟨e', he'⟩ := manifests_data_error_of_mem fs ms m e hm he
    exact ⟨e', by rw [list_command, he']⟩

/-- C4 witness: with the first layer blob deleted, the build fails naming
exactly that blob's absolute path, and it is the first missing entry. -/
theorem C4_existence_verified_witness :
    get_ollama_manifest_data exFSmissing exManifestPath =
      .error (.known (.fileNotFound "/home/user/.ollama/models/blobs/sha256-l1")) ∧
    ((KnownError.fileNotFound "/home/user/.ollama/models/blobs/sha256-l1").message =
        "File not found: " ++ "/home/user/.ollama/models/blobs/sha256-l1" ∧
      ∃ pre f post, manifestFiles exManifestPath exManifest = pre ++ f :: post ∧
        (∀ g ∈ pre,
          exFSmissing.isfile (showPath (rootResolve exManifestPath ++ g)) = true) ∧
        exFSmissing.isfile (showPath (rootResolve exManifestPath ++ f)) = false ∧
        "/home/user/.ollama/models/blobs/sha256-l1" =
          showPath (rootResolve exManifestPath ++ f)) :=
  ⟨by rfl,
    (C4_existence_verified exFSmissing exManifestPath exManifest (by rfl)).2.1
      "/home/user/.ollama/models/blobs/sha256-l1" (by rfl)⟩

/-- C5: an input matching the line-142 pattern — `name:tag` with both
parts in `[A-Za-z0-9][A-Za-z0-9._-]*`, optionally followed by a single
trailing newline, which Python's `$` accepts under `re.match` and which
the `tag` group does not capture — always takes the symbolic branch
(pattern precedence): it resolves to
`models_dir/manifests/registry.ollama.ai/library/name/tag` when that file
exists and otherwise fails with a `manifestNotFound` error naming the
original reference and the computed path; an input that does not match
the pattern is treated literally as a manifest path, failing with a
`fileNotFound` error naming the path when it is not a file. -/
theorem C5_reference_resolution (fs : FS) (models_dir : FsPath) (n t s : String)
    (hn : validNamePart n.data = true) (ht : validNamePart t.data = true)
    (hs : model_pattern_match s = none) :
    model_pattern_match (n ++ ":" ++ t) = some (n, t) ∧
    resolveOne fs models_dir (n ++ ":" ++ t) =
      (if fs.isfile
          (showPath (models_dir ++ ["manifests", "registry.ollama.ai", "library", n, t])) then
        .ok (models_dir ++ ["manifests", "registry.ollama.ai", "library", n, t])
      else
        .error (.known (.manifestNotFound (n ++ ":" ++ t)
          (showPath (models_dir ++ ["manifests", "registry.ollama.ai", "library", n, t]))))) ∧
    model_pattern_match (n ++ ":" ++ t ++ "\n") = some (n, t) ∧
    resolveOne fs models_dir (n ++ ":" ++ t ++ "\n") =
      (if fs.isfile
          (showPath (models_dir ++ ["manifests", "registry.ollama.ai", "library", n, t])) then
        .ok (models_dir ++ ["manifests", "registry.ollama.ai", "library", n, t])
      else
        .error (.known (.manifestNotFound (n ++ ":" ++ t ++ "\n")
          (showPath (models_dir ++ ["manifests", "registry.ollama.ai", "library", n, t]))))) ∧
    resolveOne fs models_dir s =
      (if fs.isfile s then .ok (strToPath s)
       else .error (.known (.fileNotFound s))) := by
  have hmatch : model_pattern_match (n ++ ":" ++ t) = some (n, t) :=
    (model_pattern_match_eq_some_iff (n ++ ":" ++ t) n t).mpr
      ⟨Or.inl (data_append_colon n t), hn, ht⟩
  have hdata : (n ++ ":" ++ t ++ "\n").data = n.data ++ ':' :: (t.data ++ ['\n']) := by
    rw [String.data_append, data_append_colon]
    simp
  have hmatch2 : model_pattern_match (n ++ ":" ++ t ++ "\n") = some (n, t) :=
    (model_pattern_match_eq_some_iff (n ++ ":" ++ t ++ "\n") n t).mpr
      ⟨Or.inr hdata, hn, ht⟩
  refine ⟨hmatch, ?_, hmatch2, ?_, ?_⟩
  · rw [resolveOne, hmatch]
  · rw [resolveOne, hmatch2]
  · rw [resolveOne, hs]

/-- C5 witness: `llama3:8b` resolves symbolically in the example store,
`llama3:8b` with a trailing newline also resolves symbolically (to the
same path), and a literal manifest path resolves literally. -/
theorem C5_reference_resolution_witness :
    validNamePart "llama3".data = true ∧ validNamePart "8b".data = true ∧
    model_pattern_match "/home/user/.ollama/models/manifests/registry.ollama.ai/library/llama3/8b" = none ∧
    (model_pattern_match ("llama3" ++ ":" ++ "8b") = some ("llama3", "8b") ∧
      resolveOne exFS exRoot ("llama3" ++ ":" ++ "8b") =
        (if exFS.isfile
            (showPath (exRoot ++ ["manifests", "registry.ollama.ai", "library", "llama3", "8b"])) then
          .ok (exRoot ++ ["manifests", "registry.ollama.ai", "library", "llama3", "8b"])
        else
          .error (.known (.manifestNotFound ("llama3" ++ ":" ++ "8b")
            (showPath (exRoot ++ ["manifests", "registry.ollama.ai", "library", "llama3", "8b"]))))) ∧
      model_pattern_match ("llama3" ++ ":" ++ "8b" ++ "\n") = some ("llama3", "8b") ∧
      resolveOne exFS exRoot ("llama3" ++ ":" ++ "8b" ++ "\n") =
        (if exFS.isfile
            (showPath (exRoot ++ ["manifests", "registry.ollama.ai", "library", "llama3", "8b"])) then
          .ok (exRoot ++ ["manifests", "registry.ollama.ai", "library", "llama3", "8b"])
        else
          .error (.known (.manifestNotFound ("llama3" ++ ":" ++ "8b" ++ "\n")
            (showPath (exRoot ++ ["manifests", "registry.ollama.ai", "library", "llama3", "8b"]))))) ∧
      resolveOne exFS exRoot
          "/home/user/.ollama/models/manifests/registry.ollama.ai/library/llama3/8b" =
        (if exFS.isfile
            "/home/user/.ollama/models/manifests/registry.ollama.ai/library/llama3/8b" then
          .ok (strToPath
            "/home/user/.ollama/models/manifests/registry.ollama.ai/library/llama3/8b")
         else
          .error (.known (.fileNotFound
            "/home/user/.ollama/models/manifests/registry.ollama.ai/library/llama3/8b")))) :=
  ⟨by decide, by decide, by rfl,
    C5_reference_resolution exFS exRoot "llama3" "8b"
      "/home/user/.ollama/models/manifests/registry.ollama.ai/library/llama3/8b"
      (by decide) (by decide) (by rfl)⟩

/-- C6: a successful `resolve_manifests` returns exactly one manifest
path per input, in input order (the pointwise correspondence `Forall₂`
with `resolveOne`, which forces equal lengths); a failing call reports
the error of the first unresolvable entry, every earlier entry being
resolvable, and — the result being an `error` — returns no partial
results. -/
theorem C6_resolution_order_and_failfast (fs : FS) (models_dir : FsPath)
    (values : List String) (ps : List FsPath) (e : Err) :
    (resolve_manifests fs values models_dir = .ok ps ↔
      List.Forall₂ (fun v p => resolveOne fs models_dir v = .ok p) values ps) ∧
    (resolve_manifests fs values models_dir = .ok ps → ps.length = values.length) ∧
    (resolve_manifests fs values models_dir = .error e →
      ∃ pre v post, values = pre ++ v :: post ∧
        (∀ u ∈ pre, ∃ p, resolveOne fs models_dir u = .ok p) ∧
        resolveOne fs models_dir v = .error e) := by
  refine ⟨resolve_manifests_ok_iff fs values models_dir ps, ?_, ?_⟩
  · intro h
    exact ((resolve_manifests_ok_iff fs values models_dir ps).mp h).length_eq.symm
  · exact resolve_manifests_error fs values models_dir e

/-- C6 witness: `llama3:8b` resolves; the unresolvable `phi3:mini` then
aborts the whole call with its error, the earlier entry having resolved. -/
theorem C6_resolution_order_and_failfast_witness :
    resolve_manifests exFS ["llama3:8b"] exRoot = .ok [exManifestPath] ∧
    [exManifestPath].length = (["llama3:8b"] : List String).length ∧
    resolve_manifests exFS ["llama3:8b", "phi3:mini"] exRoot =
      .error (.known (.manifestNotFound "phi3:mini"
        "/home/user/.ollama/models/manifests/registry.ollama.ai/library/phi3/mini")) ∧
    ∃ pre v post, ["llama3:8b", "phi3:mini"] = pre ++ v :: post ∧
      (∀ u ∈ pre, ∃ p, resolveOne exFS exRoot u = .ok p) ∧
      resolveOne exFS exRoot v =
        .error (.known (.manifestNotFound "phi3:mini"
          "/home/user/.ollama/models/manifests/registry.ollama.ai/library/phi3/mini")) :=
  ⟨by rfl,
    (C6_resolution_order_and_failfast exFS exRoot ["llama3:8b"] [exManifestPath]
      .fatal).2.1 (by rfl),
    by rfl,
    (C6_resolution_order_and_failfast exFS exRoot ["llama3:8b", "phi3:mini"] []
      (.known (.manifestNotFound "phi3:mini"
        "/home/user/.ollama/models/manifests/registry.ollama.ai/library/phi3/mini"))).2.2
      (by rfl)⟩

/-- C7: the digest-to-blob-path transform prefixes a `blobs` segment and
replaces every `:` by `-` (`sha256:deadbeef` maps to
`blobs/sha256-deadbeef`), and it is injective on digests that share the
part before their (unique) colon and differ only after it. -/
theorem C7_blob_path_codec (p s₁ s₂ : String) (hp : hasColon p = false)
    (h1 : hasColon s₁ = false) (h2 : hasColon s₂ = false) :
    toBlobPath "sha256:deadbeef" = ["blobs", "sha256-deadbeef"] ∧
    showRel (toBlobPath "sha256:deadbeef") = "blobs/sha256-deadbeef" ∧
    (∀ d, toBlobPath d = ["blobs", replaceColonDash d]) ∧
    (toBlobPath (p ++ ":" ++ s₁) = toBlobPath (p ++ ":" ++ s₂) →
      p ++ ":" ++ s₁ = p ++ ":" ++ s₂) := by
  refine ⟨by decide, by decide, fun d => rfl, ?_⟩
  intro heq
  have hrep : replaceColonDash (p ++ ":" ++ s₁) = replaceColonDash (p ++ ":" ++ s₂) := by
    have := congrArg (fun l : FsPath => l.getLast?) heq
    simpa [toBlobPath] using this
  rw [replaceColonDash_split p s₁ hp h1, replaceColonDash_split p s₂ hp h2] at hrep
  have hdata := congrArg String.data hrep
  rw [String.data_append, String.data_append, String.data_append, String.data_append,
    List.append_assoc, List.append_assoc] at hdata
  have hs := List.append_cancel_left hdata
  have hs' := List.append_cancel_left hs
  have : s₁ = s₂ := by
    cases s₁
    cases s₂
    exact congrArg String.mk hs'
  rw [this]

/-- C7 witness: the concrete mapping, and injectivity applied to the
single-colon digests `sha256:deadbeef` and `sha256:cafebabe`. -/
theorem C7_blob_path_codec_witness :
    hasColon "sha256" = false ∧ hasColon "deadbeef" = false ∧
    hasColon "cafebabe" = false ∧
    (toBlobPath "sha256:deadbeef" = ["blobs", "sha256-deadbeef"] ∧
      showRel (toBlobPath "sha256:deadbeef") = "blobs/sha256-deadbeef" ∧
      (∀ d, toBlobPath d = ["blobs", replaceColonDash d]) ∧
      (toBlobPath ("sha256" ++ ":" ++ "deadbeef") = toBlobPath ("sha256" ++ ":" ++ "cafebabe") →
        "sha256" ++ ":" ++ "deadbeef" = "sha256" ++ ":" ++ "cafebabe")) :=
  ⟨by decide, by decide, by decide,
    C7_blob_path_codec "sha256" "deadbeef" "cafebabe" (by decide) (by decide) (by decide)⟩

/-- C8: the root of a built FileSet is a function of the manifest path
alone — it equals `rootResolve` of that path, and no store-root
configuration occurs in the computation; in particular, when the same
manifest path is obtained by resolving references under two different
store-root configurations, the built roots coincide. -/
theorem C8_root_config_independent (fs : FS) (m : FsPath) (d : ManifestData)
    (h : get_ollama_manifest_data fs m = .ok d) :
    d.root = rootResolve m ∧
    ∀ (d' : ManifestData) (refs : List String) (md₁ md₂ : FsPath)
      (ms₁ ms₂ : List FsPath),
      resolve_manifests fs refs md₁ = .ok ms₁ →
      resolve_manifests fs refs md₂ = .ok ms₂ →
      m ∈ ms₁ → m ∈ ms₂ →
      get_ollama_manifest_data fs m = .ok d' → d'.root = d.root := by
  have hroot : d.root = rootResolve m := by
    cases hr : fs.readManifest (showPath m) with
    | none =>
        rw [get_ollama_manifest_data] at h
        rw [hr] at h
        cases h
    | some md =>
        rw [get_eq_of_read fs m md hr] at h
        cases hfm : firstMissing fs (rootResolve m) (manifestFiles m md) with
        | some q => rw [hfm] at h; cases h
        | none =>
            rw [hfm] at h
            injection h with h'
            rw [← h']
  refine ⟨hroot, ?_⟩
  intro d' _ _ _ _ _ _ _ _ _ h'
  rw [h] at h'
  injection h' with h''
  rw [h'']

/-- C8 witness: the example build's root is the five-level ascent of the
manifest path, and resolving the same literal manifest path under the two
different store roots yields the same built root. -/
theorem C8_root_config_independent_witness :
    exData.root = rootResolve exManifestPath ∧ exData.root = exData.root :=
  ⟨(C8_root_config_independent exFS exManifestPath exData (by rfl)).1,
    (C8_root_config_independent exFS exManifestPath exData (by rfl)).2 exData
      ["/home/user/.ollama/models/manifests/registry.ollama.ai/library/llama3/8b"]
      exRoot exRoot2 [exManifestPath] [exManifestPath]
      (by rfl) (by rfl) (by simp) (by simp) (by rfl)⟩

/-- C9: `check_single_ollama_root` fails with the mixed-roots
`KnownError` exactly when the number of distinct roots differs from 1 and
succeeds when all FileSets share one root; `list_command` applies it
after building (so a mixed-roots failure aborts the listing), while
`copy_command`, `tar_command` and `zip_command` emit unconditionally once
building succeeds, accepting FileSets with mixed roots. -/
theorem C9_single_root_check_asymmetry (ds : List ManifestData) (fs : FS)
    (ms : List FsPath) (dest : FsPath) (ap : String) :
    (check_single_ollama_root ds = .error (.known .mixedRoots) ↔
      ((ds.map fun d => d.root).dedup).length ≠ 1) ∧
    ((∃ r, ds ≠ [] ∧ ∀ d ∈ ds, d.root = r) → check_single_ollama_root ds = .ok ()) ∧
    (∀ dsd, get_ollama_manifests_data fs ms = .ok dsd →
      check_single_ollama_root dsd = .error (.known .mixedRoots) →
      list_command fs ms = .error (.known .mixedRoots)) ∧
    (∀ dsd, get_ollama_manifests_data fs ms = .ok dsd →
      copy_command fs ms dest = .ok (dsd.flatMap fun d =>
        d.files.map fun file => (showPath (d.root ++ file), showPath (dest ++ file))) ∧
      tar_command fs ms ap = .ok (dsd.flatMap fun d =>
        d.files.map fun file => (showPath (d.root ++ file), showRel file)) ∧
      zip_command fs ms ap = .ok (dsd.flatMap fun d =>
        d.files.map fun file => (showPath (d.root ++ file), showRel file))) := by
  refine ⟨?_, ?_, ?_, ?_⟩
  · by_cases hc : ((ds.map fun d => d.root).dedup).length ≠ 1
    · rw [check_single_ollama_root, if_pos hc]
      simp [hc]
    · rw [check_single_ollama_root, if_neg hc]
      constructor
      · intro h
        cases h
      · intro h
        exact absurd h hc
  · rintro ⟨r, hne, hall⟩
    have hmap : (ds.map fun d => d.root).dedup = [r] := by
      apply dedup_all_eq r
      · simpa using hne
      · intro x hx
        obtain ⟨d, hd, hdx⟩ := List.mem_map.mp hx
        rw [← hdx]
        exact hall d hd
    rw [check_single_ollama_root, if_neg]
    rw [hmap]
    simp
  · intro dsd h hc
    rw [list_command, h]
    show (match check_single_ollama_root dsd with
      | Except.error e => Except.error e
      | Except.ok _ => Except.ok (dsd.flatMap fun d => d.files.map showRel)) =
      Except.error (Err.known KnownError.mixedRoots)
    rw [hc]
  · intro dsd h
    exact ⟨by rw [copy_command, h], by rw [tar_command, h], by rw [zip_command, h]⟩

/-- C9 witness: two FileSets from the two example stores have distinct
roots; listing them fails with the mixed-roots error while copy, tar and
zip emit their entries. -/
theorem C9_single_root_check_asymmetry_witness :
    get_ollama_manifests_data exFSBoth [exManifestPath, exManifestPath2] =
      .ok [exData, exData2] ∧
    check_single_ollama_root [exData, exData2] = .error (.known .mixedRoots) ∧
    list_command exFSBoth [exManifestPath, exManifestPath2] =
      .error (.known .mixedRoots) ∧
    (copy_command exFSBoth [exManifestPath, exManifestPath2] ["srv", "backup"] =
      .ok ([exData, exData2].flatMap fun d => d.files.map fun file =>
        (showPath (d.root ++ file), showPath (["srv", "backup"] ++ file))) ∧
     tar_command exFSBoth [exManifestPath, exManifestPath2] "-" =
      .ok ([exData, exData2].flatMap fun d => d.files.map fun file =>
        (showPath (d.root ++ file), showRel file)) ∧
     zip_command exFSBoth [exManifestPath, exManifestPath2] "-" =
      .ok ([exData, exData2].flatMap fun d => d.files.map fun file =>
        (showPath (d.root ++ file), showRel file))) :=
  ⟨by rfl, by rfl,
    (C9_single_root_check_asymmetry [exData, exData2] exFSBoth
      [exManifestPath, exManifestPath2] ["srv", "backup"] "-").2.2.1
      [exData, exData2] (by rfl) (by rfl),
    (C9_single_root_check_asymmetry [exData, exData2] exFSBoth
      [exManifestPath, exManifestPath2] ["srv", "backup"] "-").2.2.2
      [exData, exData2] (by rfl)⟩

/-- C10: every command (list, copy, tar, zip) builds and
existence-verifies all FileSets before emitting anything; if the build of
any referenced manifest fails (for example because a referenced file is
missing), the whole command evaluates to that error, and — the emitted
actions existing only in the `ok` result — nothing is printed, copied or
archived. -/
theorem C10_no_output_on_failure (fs : FS) (ms : List FsPath) (m : FsPath)
    (e : Err) (dest : FsPath) (ap : String) (hm : m ∈ ms)
    (he : get_ollama_manifest_data fs m = .error e) :
    ∃ e', get_ollama_manifests_data fs ms = .error e' ∧
      list_command fs ms = .error e' ∧
      copy_command fs ms dest = .error e' ∧
      tar_command fs ms ap = .error e' ∧
      zip_command fs ms ap = .error e' := by
  obtain ⟨e', he'⟩ := manifests_data_error_of_mem fs ms m e hm he
  exact ⟨e', he', by rw [list_command, he'], by rw [copy_command, he'],
    by rw [tar_command, he'], by rw [zip_command, he']⟩

/-- C10 witness: with one layer blob missing, all four commands fail with
the same file-not-found error and emit nothing. -/
theorem C10_no_output_on_failure_witness :
    exManifestPath ∈ [exManifestPath] ∧
    get_ollama_manifest_data exFSmissing exManifestPath =
      .error (.known (.fileNotFound "/home/user/.ollama/models/blobs/sha256-l1")) ∧
    ∃ e', get_ollama_manifests_data exFSmissing [exManifestPath] = .error e' ∧
      list_command exFSmissing [exManifestPath] = .error e' ∧
      copy_command exFSmissing [exManifestPath] ["srv", "backup"] = .error e' ∧
      tar_command exFSmissing [exManifestPath] "-" = .error e' ∧
      zip_command exFSmissing [exManifestPath] "-" = .error e' :=
  ⟨by simp, by rfl,
    C10_no_output_on_failure exFSmissing [exManifestPath] exManifestPath
      (.known (.fileNotFound "/home/user/.ollama/models/blobs/sha256-l1"))
      ["srv", "backup"] "-" (by simp) (by rfl)⟩
